import Mathlib

/-!
Verification development for the multi-exchange futures trading library.

Shallow embedding conventions:
- Python floats are modelled as rationals; all arithmetic is exact.
- Gateway network calls (ticker fetch, instrument list, account configuration)
  are modelled by passing the fetched data, or the fetched-or-failed result
  as an `Except` value, as an explicit argument of the embedded function.
- The exchange-side open-order book is modelled as an explicit state value
  (`ExchangeState`); order placement and cancellation are functions on it.
- Fallible Python code (raise) is modelled with `Except`.
-/

/-! ## Rounding (BinanceFutures.round_more, OKXFutures.round_more) -/

/-- Model of `BinanceFuturesTrade.round_more`: ceil to a given number of decimal digits.
Python: `scale = 10 ** digits; return math.ceil(number * scale) / scale`. -/
def round_more (number : ℚ) (digits : Nat) : ℚ :=
  let scale : ℚ := 10 ^ digits
  (Int.ceil (number * scale) : ℚ) / scale

/-- Model of `OkxFuturesTrade.round_more`: same, with an explicit `digits <= 0` case.
Python: `if digits <= 0: return math.ceil(number)` else the scaled formula. -/
def okx_round_more (number : ℚ) (digits : Nat) : ℚ :=
  if digits ≤ 0 then (Int.ceil number : ℚ)
  else
    let scale : ℚ := 10 ^ digits
    (Int.ceil (number * scale) : ℚ) / scale

/-! ## Step-size precision (get_quantity_precision / _calc_precision) -/

/-- Python `s.upper()` for the ASCII order-side and order-type strings,
modelled as a character map (the library only uppercases ASCII arguments). -/
def py_upper (s : String) : String := ⟨s.data.map Char.toUpper⟩

/-- Python `s.rstrip('0')` on a character list. -/
def rstrip0 (s : List Char) : List Char :=
  (s.reverse.dropWhile (· == '0')).reverse

/-- The characters after the first decimal point of the string
(everything after the first dot; empty when there is no dot). -/
def fractional_part (s : String) : List Char :=
  (s.data.dropWhile (· != '.')).tail

/-- Modelled from the spec: the precision rule of section 4.1 / section 8,
"take the exchange-supplied step-size string, strip trailing zeros after the
decimal point, and count remaining fractional digits; a step with no decimal
point yields precision 0".  Used only to compare the implementations against
the spec wording. -/
def spec_precision (s : String) : Nat :=
  if s.data.contains '.' then (rstrip0 (fractional_part s)).length else 0

/-- Model of `OkxFuturesTrade._calc_precision`.
Python: `if '.' not in step_str: return 0;
splitted = step_str.split('.'); return len(splitted[1].rstrip('0'))`.
`splitted[1]` is the segment between the first and the second dot, hence the
`takeWhile`. -/
def calc_precision (step_str : String) : Nat :=
  if step_str.data.contains '.' then
    (rstrip0 ((fractional_part step_str).takeWhile (· != '.'))).length
  else 0

/-- The step-string arithmetic of `BinanceFuturesTrade.get_quantity_precision`
(and `get_price_precision`): Python `max(len(stepSize.rstrip('0')) - 2, 0)`.
Nat subtraction gives exactly the `max` with 0. -/
def binance_step_precision (stepSize : String) : Nat :=
  (rstrip0 stepSize.data).length - 2

/-! ## Instrument metadata and Binance position sizing -/

/-- One record of the `filters` array of a Binance symbol-info dict.  Fields
not present in a given filter carry the default the code reads for them
(`flt.get('stepSize', '1')`, `float(f['notional'])` only read on the matching
filter type). -/
structure FilterRec where
  filterType : String
  stepSize : String := "1"
  tickSize : String := "1"
  notional : ℚ := 0
  minQty : ℚ := 0
deriving DecidableEq, Repr

/-- A Binance symbol-info record as returned by `get_trading_symbols`. -/
structure SymbolInfo where
  symbol : String
  filters : List FilterRec
deriving DecidableEq, Repr

inductive CalcError
  | symbolNotFound
  | belowMinNotional
  | priceUnavailable
  | zeroDivision
deriving DecidableEq, Repr

/-- Model of `BinanceFuturesTrade.get_quantity_precision`: look the symbol up, then
return the step precision of the first LOT_SIZE filter, 0 when absent. -/
def binance_get_quantity_precision (symbols : List SymbolInfo) (symbol : String) :
    Except CalcError Nat :=
  match symbols.find? (fun x => x.symbol == symbol) with
  | none => .error .symbolNotFound
  | some s =>
    match s.filters.find? (fun flt => flt.filterType == "LOT_SIZE") with
    | some flt => .ok (binance_step_precision flt.stepSize)
    | none => .ok 0

/-- The MIN_NOTIONAL scan inside `calculate_quantity_from_usdt`: the loop
keeps overwriting, so the last matching filter wins, default 0. -/
def min_notional_of (symbol_item : SymbolInfo) : ℚ :=
  symbol_item.filters.foldl
    (fun acc f => if f.filterType == "MIN_NOTIONAL" then f.notional else acc) 0

/-- The min-notional actually compared against, after the take-profit
multiplication: Python
`if take_profit_targets and len(take_profit_targets) > 0: min_notional *= len(take_profit_targets)`. -/
def effective_min_notional (symbol_item : SymbolInfo)
    (take_profit_targets : Option (List ℚ)) : ℚ :=
  let m := min_notional_of symbol_item
  match take_profit_targets with
  | some tps => if tps.length > 0 then m * tps.length else m
  | none => m

/-- Model of `BinanceFuturesTrade.calculate_quantity_from_usdt`.  The fetched ticker
price is the `current_price` argument.  A zero price makes the Python
division raise, modelled by the `zeroDivision` error. -/
def binance_calculate_quantity_from_usdt (symbols : List SymbolInfo) (symbol : String)
    (current_price usdt_amount leverage : ℚ) (adjust_to_min_notional : Bool)
    (take_profit_targets : Option (List ℚ)) : Except CalcError ℚ :=
  if current_price = 0 then .error .zeroDivision
  else
    let notional := usdt_amount * leverage
    let quantity := notional / current_price
    match symbols.find? (fun s => s.symbol == symbol) with
    | none => .error .symbolNotFound
    | some symbol_item =>
      let min_notional := effective_min_notional symbol_item take_profit_targets
      let actual_notional := quantity * current_price
      if actual_notional < min_notional then
        if adjust_to_min_notional then
          match binance_get_quantity_precision symbols symbol with
          | .error e => .error e
          | .ok qty_precision => .ok (round_more (min_notional / current_price) qty_precision)
        else .error .belowMinNotional
      else
        match binance_get_quantity_precision symbols symbol with
        | .error e => .error e
        | .ok qty_precision => .ok (round_more quantity qty_precision)

/-- Model of `OkxFuturesTrade.calculate_quantity_from_usdt`; `min_sz` is the fetched
instrument `minSz` (0 when the instrument lookup returned no data). -/
def okx_calculate_quantity_from_usdt (price usdt_amount leverage : ℚ)
    (adjust_to_min_notional : Bool) (min_sz : ℚ) : Except CalcError ℚ :=
  if price ≤ 0 then .error .priceUnavailable
  else
    let raw_qty := (usdt_amount * leverage) / price
    if raw_qty < min_sz ∧ adjust_to_min_notional = true then .ok min_sz
    else .ok raw_qty

/-- Model of `BybitFuturesTrade.calculate_quantity_from_usdt`. -/
def bybit_calculate_quantity_from_usdt (price usdt_amount leverage : ℚ) :
    Except CalcError ℚ :=
  if price ≤ 0 then .error .priceUnavailable
  else .ok (round_more ((usdt_amount * leverage) / price) 3)

/-- Model of `BitgetFuturesTrade.calculate_quantity_from_usdt`. -/
def bitget_calculate_quantity_from_usdt (price usdt_amount leverage : ℚ) :
    Except CalcError ℚ :=
  if price ≤ 0 then .error .priceUnavailable
  else .ok ((usdt_amount * leverage) / price)

/-! ## Trading-mode resolution (get_trading_mode, four implementations) -/

inductive TradingMode
  | ONE_WAY
  | HEDGE
deriving DecidableEq, Repr

/-- A failure of an underlying gateway call. -/
inductive GatewayError
  | apiException
deriving DecidableEq, Repr

structure BinancePosition where
  positionSide : String
deriving DecidableEq, Repr

structure BinanceFuturesAccount where
  positions : List BinancePosition
deriving DecidableEq, Repr

/-- Model of `BinanceFuturesTrade.get_trading_mode`.  The source has no try/except
around `self.client.futures_account()`, so a failing lookup propagates: the
function is modelled on the fetched-or-failed account info. -/
def binance_get_trading_mode (acct : Except GatewayError BinanceFuturesAccount) :
    Except GatewayError TradingMode :=
  match acct with
  | .error e => .error e
  | .ok info =>
    if info.positions.any (fun p => p.positionSide == "LONG" || p.positionSide == "SHORT")
    then .ok .HEDGE
    else .ok .ONE_WAY

structure OkxAccountConfig where
  posMode : Option String
deriving DecidableEq, Repr

structure OkxConfigResp where
  data : List OkxAccountConfig
deriving DecidableEq, Repr

/-- Model of `OkxFuturesTrade.get_trading_mode`.  The source wraps the lookup in
try/except OkxAPIException and returns the default ONE_WAY on failure. -/
def okx_get_trading_mode (conf : Except GatewayError OkxConfigResp) : TradingMode :=
  match conf with
  | .error _ => .ONE_WAY
  | .ok c =>
    match c.data.head? with
    | none => .ONE_WAY
    | some d => if d.posMode == some "long_short_mode" then .HEDGE else .ONE_WAY

/-- Model of `BybitFuturesTrade.get_trading_mode`: the source always returns ONE_WAY. -/
def bybit_get_trading_mode : TradingMode := .ONE_WAY

structure BitgetAccount where
  holdMode : Option String
deriving DecidableEq, Repr

structure BitgetAccountsResp where
  data : List BitgetAccount
deriving DecidableEq, Repr

/-- Model of `BitgetFuturesTrade.get_trading_mode`.  Like the Binance version, the
source has no try/except around `mix_get_accounts`, so failures propagate. -/
def bitget_get_trading_mode (acc : Except GatewayError BitgetAccountsResp) :
    Except GatewayError TradingMode :=
  match acc with
  | .error e => .error e
  | .ok r =>
    match r.data.head? with
    | some a => if a.holdMode == some "double_hold_mode" then .ok .HEDGE else .ok .ONE_WAY
    | none => .ok .ONE_WAY

/-! ## Exchange order-book state and the Binance protective-order manager -/

/-- The keyword arguments of a `futures_create_order` call.  Absent keys are
`none` / `false`. -/
structure OrderParams where
  symbol : String
  side : String
  type : String
  positionSide : String
  quantity : Option ℚ := none
  price : Option ℚ := none
  timeInForce : Option String := none
  stopPrice : Option ℚ := none
  closePosition : Bool := false
deriving DecidableEq, Repr

/-- An open order at the exchange: submitted parameters plus the id the
exchange assigned. -/
structure Order extends OrderParams where
  orderId : Nat
deriving DecidableEq, Repr

/-- The exchange-side state this library mutates: the open-order book and
the next fresh order id. -/
structure ExchangeState where
  openOrders : List Order
  nextId : Nat
deriving DecidableEq, Repr

/-- Model of `client.futures_create_order(**params)`: the exchange appends a new open
order with a fresh id. -/
def futures_create_order (st : ExchangeState) (p : OrderParams) : ExchangeState :=
  { openOrders := st.openOrders ++ [{ toOrderParams := p, orderId := st.nextId }],
    nextId := st.nextId + 1 }

/-- Model of `BinanceFuturesTrade.close_order` /
`client.futures_cancel_order(symbol=symbol, orderId=order_id)`: the exchange
removes the open order with that symbol and id. -/
def close_order (st : ExchangeState) (symbol : String) (order_id : Nat) : ExchangeState :=
  { st with openOrders :=
      st.openOrders.filter (fun o => !(o.symbol == symbol && o.orderId == order_id)) }

/-- The repeated position-side snippet: BOTH under ONE_WAY, else LONG for a
BUY entry and SHORT for a SELL entry. -/
def resolve_position_side (trading_mode : TradingMode) (side : String) : String :=
  if trading_mode = .HEDGE then
    (if py_upper side = "BUY" then "LONG" else "SHORT")
  else "BOTH"

/-- Model of `BinanceFuturesTrade.close_stop_loss_orders`: snapshot the open orders,
cancel every one whose symbol, type STOP_MARKET and positionSide match. -/
def close_stop_loss_orders (st : ExchangeState) (symbol position_side : String) :
    ExchangeState :=
  st.openOrders.foldl
    (fun s o =>
      if o.symbol == symbol && o.type == "STOP_MARKET" && o.positionSide == position_side
      then close_order s symbol o.orderId
      else s) st

/-- Model of `BinanceFuturesTrade.close_take_profit_orders`: same sweep for
TAKE_PROFIT_MARKET orders. -/
def close_take_profit_orders (st : ExchangeState) (symbol position_side : String) :
    ExchangeState :=
  st.openOrders.foldl
    (fun s o =>
      if o.symbol == symbol && o.type == "TAKE_PROFIT_MARKET" && o.positionSide == position_side
      then close_order s symbol o.orderId
      else s) st

/-- Model of `BinanceFuturesTrade.create_stop_loss`.  The trading mode the Python code
would fetch when the argument is None is passed already resolved. -/
def create_stop_loss (st : ExchangeState) (symbol side : String)
    (stop_loss : Option ℚ) (trading_mode : TradingMode) : ExchangeState :=
  match stop_loss with
  | none => st
  | some sl =>
    let position_side := resolve_position_side trading_mode side
    let st1 := close_stop_loss_orders st symbol position_side
    futures_create_order st1
      { symbol := symbol,
        side := (if py_upper side = "BUY" then "SELL" else "BUY"),
        type := "STOP_MARKET",
        stopPrice := some sl,
        closePosition := true,
        positionSide := position_side }

/-- The parameter lists submitted by the enumerate loop of
`bulk_create_take_profits`: every target except the last is an explicit
`quantity = chunk` TAKE_PROFIT_MARKET order, the last is a
`closePosition=True` order with no quantity. -/
def tp_order_params (symbol side position_side : String) (chunk : ℚ) :
    List ℚ → List OrderParams
  | [] => []
  | [tp] =>
    [{ symbol := symbol,
       side := (if py_upper side = "BUY" then "SELL" else "BUY"),
       type := "TAKE_PROFIT_MARKET",
       stopPrice := some tp,
       positionSide := position_side,
       closePosition := true }]
  | tp :: tp2 :: rest =>
    { symbol := symbol,
      side := (if py_upper side = "BUY" then "SELL" else "BUY"),
      type := "TAKE_PROFIT_MARKET",
      stopPrice := some tp,
      quantity := some chunk,
      positionSide := position_side } :: tp_order_params symbol side position_side chunk (tp2 :: rest)

/-- Model of `BinanceFuturesTrade.bulk_create_take_profits`.  `qty_prec` is the value
`get_quantity_precision(symbol)` returns for the symbol; the resolved trading
mode is passed directly. -/
def bulk_create_take_profits (st : ExchangeState) (symbol side : String) (quantity : ℚ)
    (take_profit_targets : Option (List ℚ)) (trading_mode : TradingMode)
    (qty_prec : Nat) : ExchangeState :=
  match take_profit_targets with
  | none => st
  | some targets =>
    if targets.isEmpty then st
    else
      let position_side := resolve_position_side trading_mode side
      let st1 := close_take_profit_orders st symbol position_side
      let chunk := round_more (quantity / (targets.length : ℚ)) qty_prec
      let sorted_targets :=
        if py_upper side = "SELL" then targets.insertionSort (· ≥ ·)
        else targets.insertionSort (· ≤ ·)
      (tp_order_params symbol side position_side chunk sorted_targets).foldl
        futures_create_order st1

/-- The primary-order parameter construction of
`BinanceFuturesTrade.create_order`: price and timeInForce are attached only
for a LIMIT order with a price. -/
def binance_order_params (symbol side order_type : String) (quantity : ℚ)
    (price : Option ℚ) (position_side : String) : OrderParams :=
  let base : OrderParams :=
    { symbol := symbol,
      side := py_upper side,
      type := py_upper order_type,
      quantity := some quantity,
      positionSide := position_side }
  if py_upper order_type = "LIMIT" then
    match price with
    | some p => { base with price := some p, timeInForce := some "GTC" }
    | none => base
  else base

/-- Model of `BinanceFuturesTrade.create_order`.  The leverage change is a gateway call
without effect on the order book and is not modelled; the trading mode is
passed resolved.  Python truthiness: `if stop_loss:` skips a 0.0 stop, and
`if take_profit_targets:` skips None and the empty list. -/
def binance_create_order (st : ExchangeState) (symbol side order_type : String)
    (quantity : ℚ) (price : Option ℚ) (stop_loss : Option ℚ)
    (take_profit_targets : Option (List ℚ)) (trading_mode : TradingMode)
    (qty_prec : Nat) : ExchangeState × OrderParams :=
  let position_side := resolve_position_side trading_mode side
  let order_params := binance_order_params symbol side order_type quantity price position_side
  let st1 := futures_create_order st order_params
  let st2 := match stop_loss with
    | some sl => if sl = 0 then st1 else create_stop_loss st1 symbol side (some sl) trading_mode
    | none => st1
  let st3 := match take_profit_targets with
    | some tps =>
      if tps.isEmpty then st2
      else bulk_create_take_profits st2 symbol side quantity (some tps) trading_mode qty_prec
    | none => st2
  (st3, order_params)

/-- Well-formedness of the exchange state: open-order ids are pairwise
distinct and below the fresh-id counter. -/
def ExchangeState.WF (st : ExchangeState) : Prop :=
  (st.openOrders.map (fun o => o.orderId)).Nodup ∧
  ∀ o ∈ st.openOrders, o.orderId < st.nextId

instance (st : ExchangeState) : Decidable st.WF := by
  unfold ExchangeState.WF; infer_instance

/-- The orders the exchange creates for a list of submitted parameters,
numbering ids from `n`. -/
def with_ids (n : Nat) : List OrderParams → List Order
  | [] => []
  | p :: ps => { toOrderParams := p, orderId := n } :: with_ids (n + 1) ps

/-- The open-order filter used by the two cancellation sweeps: symbol, order
type and position side all match. -/
def order_matches (symbol ot ps : String) (o : Order) : Bool :=
  o.symbol == symbol && o.type == ot && o.positionSide == ps

/-- The parameters of the stop order `create_stop_loss` submits: STOP_MARKET,
opposite side, close the whole position at the stop price. -/
def sl_param (symbol side ps : String) (sl : ℚ) : OrderParams :=
  { symbol := symbol,
    side := (if py_upper side = "BUY" then "SELL" else "BUY"),
    type := "STOP_MARKET",
    stopPrice := some sl,
    closePosition := true,
    positionSide := ps }

/-- The parameters of a non-last take-profit leg: explicit chunk quantity. -/
def tp_chunk_param (symbol side ps : String) (chunk : ℚ) (tp : ℚ) : OrderParams :=
  { symbol := symbol,
    side := (if py_upper side = "BUY" then "SELL" else "BUY"),
    type := "TAKE_PROFIT_MARKET",
    stopPrice := some tp,
    quantity := some chunk,
    positionSide := ps }

/-- The parameters of the last take-profit leg: close the whole remaining
position, no explicit quantity. -/
def tp_close_param (symbol side ps : String) (tp : ℚ) : OrderParams :=
  { symbol := symbol,
    side := (if py_upper side = "BUY" then "SELL" else "BUY"),
    type := "TAKE_PROFIT_MARKET",
    stopPrice := some tp,
    positionSide := ps,
    closePosition := true }

/-- The closed form of the take-profit submission list: chunk legs for every
target but the last, a close-remaining leg for the last. -/
def tp_params_shape (symbol side ps : String) (chunk : ℚ) (l : List ℚ) :
    List OrderParams :=
  l.dropLast.map (tp_chunk_param symbol side ps chunk) ++
    (match l.getLast? with
     | some tp => [tp_close_param symbol side ps tp]
     | none => [])

/-- A concrete three-order book used for evaluating the cancellation sweeps:
a stop order and a take-profit order on (BTCUSDT, BOTH), and a stop order on
another symbol. -/
def openOrdersW : List Order :=
  [{ symbol := "BTCUSDT", side := "SELL", type := "STOP_MARKET",
     positionSide := "BOTH", closePosition := true, orderId := 0 },
   { symbol := "BTCUSDT", side := "SELL", type := "TAKE_PROFIT_MARKET",
     positionSide := "BOTH", closePosition := true, orderId := 1 },
   { symbol := "ETHUSDT", side := "BUY", type := "STOP_MARKET",
     positionSide := "BOTH", closePosition := true, orderId := 2 }]

/-! ## Helper lemmas: rounding -/

lemma le_round_more (x : ℚ) (d : Nat) : x ≤ round_more x d := by
  unfold round_more
  rw [le_div_iff₀ (by positivity)]
  exact Int.le_ceil _

lemma round_more_sub_lt (x : ℚ) (d : Nat) : round_more x d - x < 1 / 10 ^ d := by
  unfold round_more
  have hs : (0 : ℚ) < 10 ^ d := by positivity
  rw [sub_lt_iff_lt_add, div_lt_iff₀ hs, add_mul, one_div, inv_mul_cancel₀ hs.ne']
  have h := Int.ceil_lt_add_one (x * 10 ^ d)
  linarith

lemma okx_round_more_eq (x : ℚ) (d : Nat) : okx_round_more x d = round_more x d := by
  unfold okx_round_more round_more
  rcases Nat.eq_zero_or_pos d with h | h
  · subst h; simp
  · rw [if_neg (by omega)]

lemma round_more_eval (q : ℚ) (d : Nat) (z : ℤ)
    (h1 : (z : ℚ) - 1 < q * 10 ^ d) (h2 : q * 10 ^ d ≤ (z : ℚ)) :
    round_more q d = z / 10 ^ d := by
  show (Int.ceil (q * 10 ^ d) : ℚ) / 10 ^ d = (z : ℚ) / 10 ^ d
  rw [Int.ceil_eq_iff.mpr ⟨h1, h2⟩]

/-- C8: both rounding helpers round up to the digit grid: the result is at
least the input, exceeds it by less than one unit in the last place, and
round_more(1.2301, 2) = 1.24. -/
theorem C8_round_more_ceiling (x : ℚ) (d : Nat) :
    x ≤ round_more x d ∧ round_more x d - x < 1 / 10 ^ d ∧
    x ≤ okx_round_more x d ∧ okx_round_more x d - x < 1 / 10 ^ d ∧
    round_more (1.2301 : ℚ) 2 = (1.24 : ℚ) := by
  refine ⟨le_round_more x d, round_more_sub_lt x d, ?_, ?_, ?_⟩
  · rw [okx_round_more_eq]; exact le_round_more x d
  · rw [okx_round_more_eq]; exact round_more_sub_lt x d
  · rw [round_more_eval (1.2301 : ℚ) 2 124 (by norm_num) (by norm_num)]
    norm_num

/-! ## Helper lemmas: step-string precision -/

lemma dropWhile_append_cons {α : Type} (p : α → Bool) (xs : List α) (y : α)
    (ys : List α) (hy : p y = false) :
    (xs ++ y :: ys).dropWhile p = xs.dropWhile p ++ y :: ys := by
  induction xs with
  | nil => simp [List.dropWhile_cons, hy]
  | cons a as ih =>
    by_cases h : p a
    · simp [List.dropWhile_cons, h, ih]
    · simp [List.dropWhile_cons, h]

lemma rstrip0_cons_dot (c : Char) (frac : List Char) :
    rstrip0 (c :: '.' :: frac) = c :: '.' :: rstrip0 frac := by
  unfold rstrip0
  rw [show (c :: '.' :: frac).reverse = frac.reverse ++ '.' :: [c] by simp]
  rw [dropWhile_append_cons _ _ _ _ (by decide)]
  simp

lemma takeWhile_neq_self (l : List Char) (h : '.' ∉ l) :
    l.takeWhile (· != '.') = l := by
  induction l with
  | nil => rfl
  | cons a as ih =>
    have h1 : a ≠ '.' := fun e => h (by simp [e])
    have h2 : '.' ∉ as := fun m => h (List.mem_cons_of_mem _ m)
    simp [List.takeWhile_cons, h1, Ne.symm h1, ih h2]

lemma calc_precision_eq_spec (s : String) (h : '.' ∉ fractional_part s) :
    calc_precision s = spec_precision s := by
  unfold calc_precision spec_precision
  rw [takeWhile_neq_self _ h]

lemma fractional_part_mk (c : Char) (frac : List Char) (hc : c ≠ '.') :
    fractional_part ⟨c :: '.' :: frac⟩ = frac := by
  unfold fractional_part
  simp [List.dropWhile_cons, hc]

lemma binance_step_precision_eq_spec (c : Char) (frac : List Char) (hc : c ≠ '.') :
    binance_step_precision ⟨c :: '.' :: frac⟩ = spec_precision ⟨c :: '.' :: frac⟩ := by
  unfold binance_step_precision spec_precision
  rw [show (String.mk (c :: '.' :: frac)).data = c :: '.' :: frac from rfl]
  rw [fractional_part_mk c frac hc, rstrip0_cons_dot]
  rw [if_pos (by simp)]
  simp

lemma precision_no_dot (t : String) (h : '.' ∉ t.data) :
    calc_precision t = 0 ∧ spec_precision t = 0 := by
  unfold calc_precision spec_precision
  rw [if_neg (by simpa using h), if_neg (by simpa using h)]
  exact ⟨rfl, rfl⟩

/-- C3 (amended): the OKX precision helper computes the spec rule (fractional
digits after stripping trailing zeros; 0 with no decimal point) for every
step string whose fractional part has no further dot; the Binance formula
max(len(rstrip(s)) - 2, 0) agrees with the rule for step strings with a
single character before the decimal point, and yields 0 on dot-free strings
whose zero-stripped form has at most two characters.  The computed precision
of "0.010" is 2, not 1. -/
theorem C3_precision_rule (s t : String) (c : Char) (frac : List Char)
    (hs : '.' ∉ fractional_part s) (hc : c ≠ '.')
    (ht : '.' ∉ t.data) (ht2 : (rstrip0 t.data).length ≤ 2) :
    calc_precision s = spec_precision s ∧
    binance_step_precision ⟨c :: '.' :: frac⟩ = spec_precision ⟨c :: '.' :: frac⟩ ∧
    calc_precision t = 0 ∧ binance_step_precision t = 0 ∧
    calc_precision "0.0001" = 4 ∧ binance_step_precision "0.0001" = 4 ∧
    calc_precision "1" = 0 ∧ binance_step_precision "1" = 0 ∧
    calc_precision "0.010" = 2 ∧ binance_step_precision "0.010" = 2 := by
  refine ⟨calc_precision_eq_spec s hs, binance_step_precision_eq_spec c frac hc,
    (precision_no_dot t ht).1, ?_, by decide, by decide, by decide, by decide,
    by decide, by decide⟩
  unfold binance_step_precision
  omega

/-- Witness for C3_precision_rule at s = "0.001", t = "10", c = '0',
frac = "010".data. -/
theorem C3_precision_rule_witness :
    ('.' ∉ fractional_part "0.001") ∧ ('0' : Char) ≠ '.' ∧
    ('.' ∉ "10".data) ∧ (rstrip0 "10".data).length ≤ 2 ∧
    (calc_precision "0.001" = spec_precision "0.001" ∧
     binance_step_precision ⟨'0' :: '.' :: ['0', '1', '0']⟩ =
       spec_precision ⟨'0' :: '.' :: ['0', '1', '0']⟩ ∧
     calc_precision "10" = 0 ∧ binance_step_precision "10" = 0 ∧
     calc_precision "0.0001" = 4 ∧ binance_step_precision "0.0001" = 4 ∧
     calc_precision "1" = 0 ∧ binance_step_precision "1" = 0 ∧
     calc_precision "0.010" = 2 ∧ binance_step_precision "0.010" = 2) :=
  ⟨by decide, by decide, by decide, by decide,
   C3_precision_rule "0.001" "10" '0' ['0', '1', '0']
     (by decide) (by decide) (by decide) (by decide)⟩

/-- Counterexample for C3 as stated: the claim asserts precision("0.010") = 1,
but both implementations compute 2. -/
theorem C3_counterexample :
    calc_precision "0.010" = 2 ∧ binance_step_precision "0.010" = 2 ∧ (2 : Nat) ≠ 1 := by
  refine ⟨by decide, by decide, by omega⟩

/-! ## C4: trading-mode resolution -/

/-- C4 (amended): every implementation returns only ONE_WAY or HEDGE on a
successful lookup, and OKX returns the default ONE_WAY on a failed lookup;
but the Binance and BitGet implementations propagate a lookup failure
instead of defaulting. -/
theorem C4_trading_mode_defaults (e : GatewayError) (info : BinanceFuturesAccount)
    (conf : Except GatewayError OkxConfigResp) :
    okx_get_trading_mode (Except.error e) = TradingMode.ONE_WAY ∧
    (okx_get_trading_mode conf = TradingMode.ONE_WAY ∨
     okx_get_trading_mode conf = TradingMode.HEDGE) ∧
    binance_get_trading_mode (Except.error e) = Except.error e ∧
    (binance_get_trading_mode (Except.ok info) = Except.ok TradingMode.ONE_WAY ∨
     binance_get_trading_mode (Except.ok info) = Except.ok TradingMode.HEDGE) ∧
    bitget_get_trading_mode (Except.error e) = Except.error e ∧
    bybit_get_trading_mode = TradingMode.ONE_WAY := by
  refine ⟨rfl, ?_, rfl, ?_, rfl, rfl⟩
  · cases conf with
    | error e2 => exact Or.inl rfl
    | ok c =>
      rcases hh : c.data.head? with _ | d
      · exact Or.inl (by simp [okx_get_trading_mode, hh])
      · by_cases hb : d.posMode = some "long_short_mode"
        · exact Or.inr (by simp [okx_get_trading_mode, hh, hb])
        · exact Or.inl (by simp [okx_get_trading_mode, hh, hb])
  · by_cases hb : info.positions.any
        (fun p => p.positionSide == "LONG" || p.positionSide == "SHORT") = true
    · exact Or.inr (by simp [binance_get_trading_mode, hb])
    · exact Or.inl (by simp [binance_get_trading_mode, hb])

/-- Counterexample for C4 as stated: the Binance implementation does not
swallow the lookup failure, it propagates it, so on a failed
account-configuration lookup it does not return the default ONE_WAY. -/
theorem C4_counterexample :
    binance_get_trading_mode (Except.error GatewayError.apiException) =
      Except.error GatewayError.apiException ∧
    binance_get_trading_mode (Except.error GatewayError.apiException) ≠
      Except.ok TradingMode.ONE_WAY ∧
    binance_get_trading_mode (Except.error GatewayError.apiException) ≠
      Except.ok TradingMode.HEDGE := by
  refine ⟨rfl, fun h => ?_, fun h => ?_⟩ <;>
    exact Except.noConfusion (show Except.error GatewayError.apiException =
      (Except.ok _ : Except GatewayError TradingMode) from h)

/-! ## C5: positive-price guard in position sizing -/

/-- C5 (amended): the OKX, ByBit and BitGet implementations fail before
computing any quantity whenever the fetched price is not positive; the
Binance implementation performs no such check (a zero price only surfaces as
the division error that the Python division raises, not as a price check). -/
theorem C5_price_guard (price usdt lev min_sz usdt2 lev2 : ℚ) (adjust adjust2 : Bool)
    (symbols : List SymbolInfo) (symbol : String) (tps : Option (List ℚ))
    (hp : price ≤ 0) :
    okx_calculate_quantity_from_usdt price usdt lev adjust min_sz =
      Except.error CalcError.priceUnavailable ∧
    bybit_calculate_quantity_from_usdt price usdt lev =
      Except.error CalcError.priceUnavailable ∧
    bitget_calculate_quantity_from_usdt price usdt lev =
      Except.error CalcError.priceUnavailable ∧
    binance_calculate_quantity_from_usdt symbols symbol 0 usdt2 lev2 adjust2 tps =
      Except.error CalcError.zeroDivision := by
  refine ⟨?_, ?_, ?_, ?_⟩
  · unfold okx_calculate_quantity_from_usdt; rw [if_pos hp]
  · unfold bybit_calculate_quantity_from_usdt; rw [if_pos hp]
  · unfold bitget_calculate_quantity_from_usdt; rw [if_pos hp]
  · unfold binance_calculate_quantity_from_usdt; rw [if_pos rfl]

/-- Witness for C5_price_guard at price = -1. -/
theorem C5_price_guard_witness :
    ((-1 : ℚ) ≤ 0) ∧
    (okx_calculate_quantity_from_usdt (-1) 5 2 true 0 =
       Except.error CalcError.priceUnavailable ∧
     bybit_calculate_quantity_from_usdt (-1) 5 2 =
       Except.error CalcError.priceUnavailable ∧
     bitget_calculate_quantity_from_usdt (-1) 5 2 =
       Except.error CalcError.priceUnavailable ∧
     binance_calculate_quantity_from_usdt [] "BTCUSDT" 0 5 2 true none =
       Except.error CalcError.zeroDivision) :=
  ⟨by norm_num,
   C5_price_guard (-1) 5 2 0 5 2 true true [] "BTCUSDT" none (by norm_num)⟩

/-- Counterexample for C5 as stated: the Binance implementation accepts a
negative fetched price and returns a (negative) quantity instead of failing
with a price error. -/
theorem C5_counterexample :
    ((-1 : ℚ) ≤ 0) ∧
    binance_calculate_quantity_from_usdt [⟨"BTCUSDT", []⟩] "BTCUSDT" (-1) 1 1 true none =
      Except.ok (-1) := by
  refine ⟨by norm_num, ?_⟩
  unfold binance_calculate_quantity_from_usdt
  rw [if_neg (by norm_num)]
  simp only [List.find?, effective_min_notional, min_notional_of, List.foldl,
    binance_get_quantity_precision]
  norm_num
  rw [round_more_eval (-1) 0 (-1) (by norm_num) (by norm_num)]
  norm_num

/-! ## Helper lemmas: cancellation sweeps over the order book -/

lemma close_order_openOrders (s : ExchangeState) (symbol : String) (oid : Nat) :
    (close_order s symbol oid).openOrders =
      s.openOrders.filter (fun o => !(o.symbol == symbol && o.orderId == oid)) := rfl

lemma close_order_nextId (s : ExchangeState) (symbol : String) (oid : Nat) :
    (close_order s symbol oid).nextId = s.nextId := rfl

lemma sweep_fold_nextId (q : Order → Bool) (symbol : String) (snap : List Order) :
    ∀ s : ExchangeState,
      (snap.foldl (fun st o => if q o then close_order st symbol o.orderId else st) s).nextId
        = s.nextId := by
  induction snap with
  | nil => intro s; rfl
  | cons o rest ih =>
    intro s
    rw [List.foldl_cons, ih]
    by_cases hqo : q o = true
    · rw [if_pos hqo, close_order_nextId]
    · rw [if_neg hqo]

lemma sweep_fold_openOrders (q : Order → Bool) (symbol : String) (snap : List Order) :
    ∀ s : ExchangeState,
      (snap.foldl (fun st o => if q o then close_order st symbol o.orderId else st) s).openOrders
        = s.openOrders.filter
            (fun x => !(snap.any (fun o => q o && (x.symbol == symbol && x.orderId == o.orderId)))) := by
  induction snap with
  | nil => intro s; simp
  | cons o rest ih =>
    intro s
    rw [List.foldl_cons, ih]
    by_cases hqo : q o = true
    · rw [if_pos hqo, close_order_openOrders, List.filter_filter]
      apply List.filter_congr
      intro x _
      simp only [List.any_cons, hqo, Bool.true_and, Bool.or_eq_true, Bool.not_or]
      rw [Bool.and_comm]
    · rw [if_neg hqo]
      apply List.filter_congr
      intro x _
      have hq0 : q o = false := by revert hqo; cases q o <;> simp
      simp [List.any_cons, hq0]

lemma nodup_inj_of_ids {l : List Order}
    (hnd : (l.map (fun o => o.orderId)).Nodup) :
    ∀ x ∈ l, ∀ y ∈ l, x.orderId = y.orderId → x = y := by
  intro x hx y hy hxy
  exact List.inj_on_of_nodup_map hnd hx hy hxy

/-- The cancellation sweep on the full open-order snapshot, with pairwise
distinct order ids, removes exactly the matching orders. -/
lemma sweep_self_filter (st : ExchangeState) (symbol ot ps : String)
    (hnd : (st.openOrders.map (fun o => o.orderId)).Nodup) :
    st.openOrders.filter
        (fun x => !(st.openOrders.any
          (fun o => order_matches symbol ot ps o && (x.symbol == symbol && x.orderId == o.orderId))))
      = st.openOrders.filter (fun x => !(order_matches symbol ot ps x)) := by
  apply List.filter_congr
  intro x hx
  congr 1
  by_cases hm : order_matches symbol ot ps x = true
  · rw [hm]
    have hsym : (x.symbol == symbol) = true := by
      unfold order_matches at hm
      simp only [Bool.and_eq_true] at hm
      exact hm.1.1
    rw [List.any_eq_true]
    exact ⟨x, hx, by simp [hm, hsym]⟩
  · have hm0 : order_matches symbol ot ps x = false := Bool.eq_false_iff.mpr hm
    rw [hm0, List.any_eq_false]
    intro o ho hcontra
    simp only [Bool.and_eq_true] at hcontra
    obtain ⟨hqo, _, hid⟩ := hcontra
    have hxo : x = o := nodup_inj_of_ids hnd x hx o ho (eq_of_beq hid)
    rw [hxo, hqo] at hm0
    exact Bool.noConfusion hm0

lemma close_stop_loss_orders_openOrders (st : ExchangeState) (symbol ps : String)
    (hnd : (st.openOrders.map (fun o => o.orderId)).Nodup) :
    (close_stop_loss_orders st symbol ps).openOrders =
      st.openOrders.filter (fun o => !(order_matches symbol "STOP_MARKET" ps o)) := by
  rw [show close_stop_loss_orders st symbol ps =
      st.openOrders.foldl
        (fun s o => if order_matches symbol "STOP_MARKET" ps o
                    then close_order s symbol o.orderId else s) st from rfl]
  rw [sweep_fold_openOrders, sweep_self_filter st symbol "STOP_MARKET" ps hnd]

lemma close_stop_loss_orders_nextId (st : ExchangeState) (symbol ps : String) :
    (close_stop_loss_orders st symbol ps).nextId = st.nextId := by
  rw [show close_stop_loss_orders st symbol ps =
      st.openOrders.foldl
        (fun s o => if order_matches symbol "STOP_MARKET" ps o
                    then close_order s symbol o.orderId else s) st from rfl]
  rw [sweep_fold_nextId]

lemma close_take_profit_orders_openOrders (st : ExchangeState) (symbol ps : String)
    (hnd : (st.openOrders.map (fun o => o.orderId)).Nodup) :
    (close_take_profit_orders st symbol ps).openOrders =
      st.openOrders.filter (fun o => !(order_matches symbol "TAKE_PROFIT_MARKET" ps o)) := by
  rw [show close_take_profit_orders st symbol ps =
      st.openOrders.foldl
        (fun s o => if order_matches symbol "TAKE_PROFIT_MARKET" ps o
                    then close_order s symbol o.orderId else s) st from rfl]
  rw [sweep_fold_openOrders, sweep_self_filter st symbol "TAKE_PROFIT_MARKET" ps hnd]

lemma close_take_profit_orders_nextId (st : ExchangeState) (symbol ps : String) :
    (close_take_profit_orders st symbol ps).nextId = st.nextId := by
  rw [show close_take_profit_orders st symbol ps =
      st.openOrders.foldl
        (fun s o => if order_matches symbol "TAKE_PROFIT_MARKET" ps o
                    then close_order s symbol o.orderId else s) st from rfl]
  rw [sweep_fold_nextId]

/-- C10: the stale-order sweeps cancel exactly the open orders matching
(symbol, order type, positionSide) — STOP_MARKET for the stop-loss sweep,
TAKE_PROFIT_MARKET for the take-profit sweep — and mutate nothing else: the
surviving order list is the filtered original and the id counter is
untouched, so in particular every take-profit order survives the stop-loss
sweep and vice versa. -/
theorem C10_cancel_sweeps_frame (st : ExchangeState) (symbol ps : String)
    (hnd : (st.openOrders.map (fun o => o.orderId)).Nodup) :
    (close_stop_loss_orders st symbol ps).openOrders =
      st.openOrders.filter (fun o => !(order_matches symbol "STOP_MARKET" ps o)) ∧
    (close_stop_loss_orders st symbol ps).nextId = st.nextId ∧
    (close_take_profit_orders st symbol ps).openOrders =
      st.openOrders.filter (fun o => !(order_matches symbol "TAKE_PROFIT_MARKET" ps o)) ∧
    (close_take_profit_orders st symbol ps).nextId = st.nextId :=
  ⟨close_stop_loss_orders_openOrders st symbol ps hnd,
   close_stop_loss_orders_nextId st symbol ps,
   close_take_profit_orders_openOrders st symbol ps hnd,
   close_take_profit_orders_nextId st symbol ps⟩

/-- Witness for C10_cancel_sweeps_frame on a three-order book: a stop order,
a take-profit order on the same pair, and a stop order on another symbol. -/
theorem C10_cancel_sweeps_frame_witness :
    (((openOrdersW.map (fun o => o.orderId)).Nodup) ∧
      ((close_stop_loss_orders ⟨openOrdersW, 3⟩ "BTCUSDT" "BOTH").openOrders =
          openOrdersW.filter (fun o => !(order_matches "BTCUSDT" "STOP_MARKET" "BOTH" o)) ∧
        (close_stop_loss_orders ⟨openOrdersW, 3⟩ "BTCUSDT" "BOTH").nextId = 3 ∧
        (close_take_profit_orders ⟨openOrdersW, 3⟩ "BTCUSDT" "BOTH").openOrders =
          openOrdersW.filter (fun o => !(order_matches "BTCUSDT" "TAKE_PROFIT_MARKET" "BOTH" o)) ∧
        (close_take_profit_orders ⟨openOrdersW, 3⟩ "BTCUSDT" "BOTH").nextId = 3)) :=
  ⟨by decide, C10_cancel_sweeps_frame ⟨openOrdersW, 3⟩ "BTCUSDT" "BOTH" (by decide)⟩

/-! ## Helper lemmas: stop-loss replacement -/

lemma create_stop_loss_some_spec (st : ExchangeState) (symbol side : String)
    (sl : ℚ) (tm : TradingMode)
    (hnd : (st.openOrders.map (fun o => o.orderId)).Nodup) :
    (create_stop_loss st symbol side (some sl) tm).openOrders =
      st.openOrders.filter
          (fun o => !(order_matches symbol "STOP_MARKET" (resolve_position_side tm side) o))
        ++ [{ toOrderParams := sl_param symbol side (resolve_position_side tm side) sl,
              orderId := st.nextId }] ∧
    (create_stop_loss st symbol side (some sl) tm).nextId = st.nextId + 1 := by
  unfold create_stop_loss
  constructor
  · show (close_stop_loss_orders st symbol (resolve_position_side tm side)).openOrders ++ _ = _
    rw [close_stop_loss_orders_openOrders st symbol _ hnd,
      close_stop_loss_orders_nextId st symbol _]
    rfl
  · show (close_stop_loss_orders st symbol (resolve_position_side tm side)).nextId + 1 = _
    rw [close_stop_loss_orders_nextId st symbol _]

lemma create_stop_loss_some_nodup (st : ExchangeState) (symbol side : String)
    (sl : ℚ) (tm : TradingMode) (hwf : st.WF) :
    ((create_stop_loss st symbol side (some sl) tm).openOrders.map
      (fun o => o.orderId)).Nodup := by
  obtain ⟨hnd, hlt⟩ := hwf
  obtain ⟨hoo, _⟩ := create_stop_loss_some_spec st symbol side sl tm hnd
  rw [hoo, List.map_append, List.nodup_append]
  refine ⟨(hnd.sublist (List.Sublist.map _ (List.filter_sublist _))), by simp, ?_⟩
  intro x hx
  simp only [List.mem_map] at hx
  obtain ⟨o, ho, rfl⟩ := hx
  have hmem : o ∈ st.openOrders := List.mem_of_mem_filter ho
  have := hlt o hmem
  simp only [List.map_cons, List.map_nil, List.mem_singleton]
  omega

/-- C7: create_stop_loss with an absent stop price is a no-op; with a stop
price it first cancels every STOP_MARKET order of the (symbol, positionSide)
pair and then submits one close-position stop order on the opposite side at
that price; and after two successive calls with different prices exactly one
open stop order remains for the pair. -/
theorem C7_stop_loss_idempotent_replacement (st : ExchangeState) (symbol side : String)
    (sl1 sl2 : ℚ) (tm : TradingMode) (hwf : st.WF) (hprices : sl1 ≠ sl2) :
    create_stop_loss st symbol side none tm = st ∧
    (create_stop_loss st symbol side (some sl1) tm).openOrders =
      st.openOrders.filter
          (fun o => !(order_matches symbol "STOP_MARKET" (resolve_position_side tm side) o))
        ++ [{ toOrderParams := sl_param symbol side (resolve_position_side tm side) sl1,
              orderId := st.nextId }] ∧
    ((create_stop_loss (create_stop_loss st symbol side (some sl1) tm) symbol side
        (some sl2) tm).openOrders.filter
          (order_matches symbol "STOP_MARKET" (resolve_position_side tm side))).length = 1 := by
  refine ⟨rfl, (create_stop_loss_some_spec st symbol side sl1 tm hwf.1).1, ?_⟩
  have hnd1 := create_stop_loss_some_nodup st symbol side sl1 tm hwf
  obtain ⟨hoo2, _⟩ := create_stop_loss_some_spec
    (create_stop_loss st symbol side (some sl1) tm) symbol side sl2 tm hnd1
  rw [hoo2, List.filter_append, List.filter_filter]
  have h1 : ∀ l : List Order,
      l.filter (fun a => order_matches symbol "STOP_MARKET" (resolve_position_side tm side) a
        && !(order_matches symbol "STOP_MARKET" (resolve_position_side tm side) a)) = [] := by
    intro l
    rw [List.filter_congr (fun a _ => Bool.and_not_self _), List.filter_false]
  rw [h1]
  simp [order_matches, sl_param]

/-- Witness for C7_stop_loss_idempotent_replacement on an empty order book,
stop prices 100 then 200. -/
theorem C7_stop_loss_idempotent_replacement_witness :
    (ExchangeState.WF ⟨[], 0⟩) ∧ ((100 : ℚ) ≠ 200) ∧
    (create_stop_loss ⟨[], 0⟩ "BTCUSDT" "BUY" none TradingMode.ONE_WAY = ⟨[], 0⟩ ∧
     (create_stop_loss ⟨[], 0⟩ "BTCUSDT" "BUY" (some 100) TradingMode.ONE_WAY).openOrders =
       (⟨[], 0⟩ : ExchangeState).openOrders.filter
           (fun o => !(order_matches "BTCUSDT" "STOP_MARKET"
             (resolve_position_side TradingMode.ONE_WAY "BUY") o))
         ++ [{ toOrderParams := sl_param "BTCUSDT" "BUY"
                 (resolve_position_side TradingMode.ONE_WAY "BUY") 100,
               orderId := (⟨[], 0⟩ : ExchangeState).nextId }] ∧
     ((create_stop_loss (create_stop_loss ⟨[], 0⟩ "BTCUSDT" "BUY" (some 100)
           TradingMode.ONE_WAY) "BTCUSDT" "BUY" (some 200) TradingMode.ONE_WAY).openOrders.filter
         (order_matches "BTCUSDT" "STOP_MARKET"
           (resolve_position_side TradingMode.ONE_WAY "BUY"))).length = 1) :=
  ⟨by decide, by norm_num,
   C7_stop_loss_idempotent_replacement ⟨[], 0⟩ "BTCUSDT" "BUY" 100 200
     TradingMode.ONE_WAY (by decide) (by norm_num)⟩

/-! ## C9: LIMIT order parameter construction -/

/-- C9: a LIMIT order with no price is still submitted and its parameters
carry neither a price nor a timeInForce; a LIMIT order with a price is
submitted with that price and timeInForce GTC. -/
theorem C9_limit_order_params (st : ExchangeState) (symbol side : String)
    (quantity p : ℚ) (tm : TradingMode) (prec : Nat) :
    (binance_order_params symbol side "LIMIT" quantity none
        (resolve_position_side tm side)).price = none ∧
    (binance_order_params symbol side "LIMIT" quantity none
        (resolve_position_side tm side)).timeInForce = none ∧
    (binance_create_order st symbol side "LIMIT" quantity none none none tm
        prec).1.openOrders =
      st.openOrders ++
        [{ toOrderParams := binance_order_params symbol side "LIMIT" quantity none
             (resolve_position_side tm side), orderId := st.nextId }] ∧
    (binance_create_order st symbol side "LIMIT" quantity none none none tm prec).2 =
      binance_order_params symbol side "LIMIT" quantity none
        (resolve_position_side tm side) ∧
    (binance_order_params symbol side "LIMIT" quantity (some p)
        (resolve_position_side tm side)).price = some p ∧
    (binance_order_params symbol side "LIMIT" quantity (some p)
        (resolve_position_side tm side)).timeInForce = some "GTC" ∧
    (binance_create_order st symbol side "LIMIT" quantity (some p) none none tm
        prec).1.openOrders =
      st.openOrders ++
        [{ toOrderParams := binance_order_params symbol side "LIMIT" quantity (some p)
             (resolve_position_side tm side), orderId := st.nextId }] := by
  have hlim : py_upper "LIMIT" = "LIMIT" := rfl
  unfold binance_order_params binance_create_order futures_create_order
  rw [hlim]
  exact ⟨rfl, rfl, rfl, rfl, rfl, rfl, rfl⟩

/-! ## Helper lemmas: take-profit ladder structure -/

lemma tp_params_eq_shape (symbol side ps : String) (chunk : ℚ) :
    ∀ l : List ℚ,
      tp_order_params symbol side ps chunk l = tp_params_shape symbol side ps chunk l
  | [] => rfl
  | [tp] => rfl
  | tp :: tp2 :: rest => by
    have ih := tp_params_eq_shape symbol side ps chunk (tp2 :: rest)
    show tp_chunk_param symbol side ps chunk tp ::
        tp_order_params symbol side ps chunk (tp2 :: rest) = _
    rw [ih]
    unfold tp_params_shape
    rw [List.dropLast_cons₂, List.getLast?_cons_cons, List.map_cons]
    rfl

lemma foldl_create_openOrders (L : List OrderParams) :
    ∀ s : ExchangeState,
      (L.foldl futures_create_order s).openOrders = s.openOrders ++ with_ids s.nextId L := by
  induction L with
  | nil => intro s; simp [with_ids]
  | cons p ps ih =>
    intro s
    rw [List.foldl_cons, ih]
    show (s.openOrders ++ [{ toOrderParams := p, orderId := s.nextId }]) ++
        with_ids (s.nextId + 1) ps = s.openOrders ++ with_ids s.nextId (p :: ps)
    rw [show with_ids s.nextId (p :: ps) =
        { toOrderParams := p, orderId := s.nextId } :: with_ids (s.nextId + 1) ps from rfl,
      List.append_assoc, List.singleton_append]

lemma bulk_create_take_profits_some (st : ExchangeState) (symbol side : String)
    (quantity : ℚ) (targets : List ℚ) (tm : TradingMode) (qty_prec : Nat)
    (hne : targets ≠ []) :
    bulk_create_take_profits st symbol side quantity (some targets) tm qty_prec =
      (tp_order_params symbol side (resolve_position_side tm side)
          (round_more (quantity / (targets.length : ℚ)) qty_prec)
          (if py_upper side = "SELL" then targets.insertionSort (· ≥ ·)
           else targets.insertionSort (· ≤ ·))).foldl
        futures_create_order
        (close_take_profit_orders st symbol (resolve_position_side tm side)) := by
  simp only [bulk_create_take_profits]
  rw [if_neg (by simp [hne])]

/-- C1: bulk_create_take_profits is a no-op on an absent or empty target
list; otherwise it submits one order per target in sorted order — ascending
for BUY, descending for SELL — where every leg but the last carries the
explicit quantity roundUp(quantity / N, precision) and the last leg is a
close-position order with no quantity (tp_params_shape). -/
theorem C1_bulk_take_profit_submissions (st : ExchangeState) (symbol side : String)
    (q : ℚ) (targets : List ℚ) (tm : TradingMode) (prec : Nat)
    (hne : targets ≠ []) :
    bulk_create_take_profits st symbol side q none tm prec = st ∧
    bulk_create_take_profits st symbol side q (some []) tm prec = st ∧
    List.Sorted (· ≤ ·) (targets.insertionSort (· ≤ ·)) ∧
    (targets.insertionSort (· ≤ ·)).Perm targets ∧
    List.Sorted (· ≥ ·) (targets.insertionSort (· ≥ ·)) ∧
    (targets.insertionSort (· ≥ ·)).Perm targets ∧
    (bulk_create_take_profits st symbol "BUY" q (some targets) tm prec).openOrders =
      (close_take_profit_orders st symbol (resolve_position_side tm "BUY")).openOrders ++
        with_ids st.nextId
          (tp_params_shape symbol "BUY" (resolve_position_side tm "BUY")
            (round_more (q / (targets.length : ℚ)) prec)
            (targets.insertionSort (· ≤ ·))) ∧
    (bulk_create_take_profits st symbol "SELL" q (some targets) tm prec).openOrders =
      (close_take_profit_orders st symbol (resolve_position_side tm "SELL")).openOrders ++
        with_ids st.nextId
          (tp_params_shape symbol "SELL" (resolve_position_side tm "SELL")
            (round_more (q / (targets.length : ℚ)) prec)
            (targets.insertionSort (· ≥ ·))) := by
  refine ⟨rfl, rfl, List.sorted_insertionSort _ targets, List.perm_insertionSort _ targets,
    List.sorted_insertionSort _ targets, List.perm_insertionSort _ targets, ?_, ?_⟩
  · rw [bulk_create_take_profits_some st symbol "BUY" q targets tm prec hne]
    rw [if_neg (show ¬(py_upper "BUY" = "SELL") by decide)]
    rw [foldl_create_openOrders, close_take_profit_orders_nextId, tp_params_eq_shape]
  · rw [bulk_create_take_profits_some st symbol "SELL" q targets tm prec hne]
    rw [if_pos (show py_upper "SELL" = "SELL" from rfl)]
    rw [foldl_create_openOrders, close_take_profit_orders_nextId, tp_params_eq_shape]

/-- Witness for C1_bulk_take_profit_submissions at the spec example targets
[100, 90, 110]. -/
theorem C1_bulk_take_profit_submissions_witness :
    (([100, 90, 110] : List ℚ) ≠ []) ∧
    (bulk_create_take_profits ⟨[], 0⟩ "BTCUSDT" "BUY" 1 none TradingMode.ONE_WAY 3 = ⟨[], 0⟩ ∧
     bulk_create_take_profits ⟨[], 0⟩ "BTCUSDT" "BUY" 1 (some []) TradingMode.ONE_WAY 3 = ⟨[], 0⟩ ∧
     List.Sorted (· ≤ ·) (([100, 90, 110] : List ℚ).insertionSort (· ≤ ·)) ∧
     (([100, 90, 110] : List ℚ).insertionSort (· ≤ ·)).Perm [100, 90, 110] ∧
     List.Sorted (· ≥ ·) (([100, 90, 110] : List ℚ).insertionSort (· ≥ ·)) ∧
     (([100, 90, 110] : List ℚ).insertionSort (· ≥ ·)).Perm [100, 90, 110] ∧
     (bulk_create_take_profits ⟨[], 0⟩ "BTCUSDT" "BUY" 1 (some [100, 90, 110])
         TradingMode.ONE_WAY 3).openOrders =
       (close_take_profit_orders ⟨[], 0⟩ "BTCUSDT"
           (resolve_position_side TradingMode.ONE_WAY "BUY")).openOrders ++
         with_ids (⟨[], 0⟩ : ExchangeState).nextId
           (tp_params_shape "BTCUSDT" "BUY" (resolve_position_side TradingMode.ONE_WAY "BUY")
             (round_more (1 / (([100, 90, 110] : List ℚ).length : ℚ)) 3)
             (([100, 90, 110] : List ℚ).insertionSort (· ≤ ·))) ∧
     (bulk_create_take_profits ⟨[], 0⟩ "BTCUSDT" "SELL" 1 (some [100, 90, 110])
         TradingMode.ONE_WAY 3).openOrders =
       (close_take_profit_orders ⟨[], 0⟩ "BTCUSDT"
           (resolve_position_side TradingMode.ONE_WAY "SELL")).openOrders ++
         with_ids (⟨[], 0⟩ : ExchangeState).nextId
           (tp_params_shape "BTCUSDT" "SELL" (resolve_position_side TradingMode.ONE_WAY "SELL")
             (round_more (1 / (([100, 90, 110] : List ℚ).length : ℚ)) 3)
             (([100, 90, 110] : List ℚ).insertionSort (· ≥ ·)))) :=
  ⟨by simp,
   C1_bulk_take_profit_submissions ⟨[], 0⟩ "BTCUSDT" "BUY" 1 [100, 90, 110]
     TradingMode.ONE_WAY 3 (by simp)⟩

/-! ## Helper lemmas: chunk-sum arithmetic -/

lemma tp_params_quantities (symbol side ps : String) (chunk : ℚ) (l : List ℚ)
    (h : l ≠ []) :
    (tp_order_params symbol side ps chunk l).map (fun p => p.quantity)
      = List.replicate (l.length - 1) (some chunk) ++ [none] := by
  rw [tp_params_eq_shape]
  unfold tp_params_shape
  rcases List.eq_nil_or_concat l with rfl | ⟨l2, a, rfl⟩
  · exact absurd rfl h
  · simp only [List.concat_eq_append]
    rw [List.dropLast_concat, List.getLast?_concat]
    simp [List.map_map, tp_chunk_param, tp_close_param, Function.comp]
    exact List.map_const' l2 (some chunk)

lemma chunk_sum_arith (q : ℚ) (n d : Nat) (hn : 1 ≤ n) (hq : 0 < q)
    (hbound : (n : ℚ) * ((n : ℚ) - 1) / 10 ^ d ≤ q) :
    ((n - 1 : ℕ) : ℚ) * round_more (q / (n : ℚ)) d ≤ q := by
  have hcast : ((n - 1 : ℕ) : ℚ) = (n : ℚ) - 1 := by
    push_cast [Nat.cast_sub hn]
    ring
  rw [hcast]
  rcases Nat.lt_or_ge n 2 with h2 | h2
  · have hn1 : n = 1 := by omega
    subst hn1
    norm_num
    exact hq.le
  · have hN : (2 : ℚ) ≤ (n : ℚ) := by exact_mod_cast h2
    have hs : (0 : ℚ) < 10 ^ d := by positivity
    have hNpos : (0 : ℚ) < (n : ℚ) := by linarith
    have hrm : round_more (q / (n : ℚ)) d = (Int.ceil (q / (n : ℚ) * 10 ^ d) : ℚ) / 10 ^ d := rfl
    have hceil : (Int.ceil (q / (n : ℚ) * 10 ^ d) : ℚ) < q / (n : ℚ) * 10 ^ d + 1 :=
      Int.ceil_lt_add_one _
    have hy : (n : ℚ) - 1 ≤ q / (n : ℚ) * 10 ^ d := by
      rw [div_mul_eq_mul_div, le_div_iff₀ hNpos]
      have hqs : (n : ℚ) * ((n : ℚ) - 1) ≤ q * 10 ^ d := (div_le_iff₀ hs).mp hbound
      nlinarith [hqs]
    rw [hrm, ← mul_div_assoc, div_le_iff₀ hs]
    have hys : (n : ℚ) * (q / (n : ℚ) * 10 ^ d) = q * 10 ^ d := by
      field_simp
    have h3 : ((n : ℚ) - 1) * (Int.ceil (q / (n : ℚ) * 10 ^ d) : ℚ) ≤
        ((n : ℚ) - 1) * (q / (n : ℚ) * 10 ^ d + 1) :=
      mul_le_mul_of_nonneg_left hceil.le (by linarith)
    have h4 : ((n : ℚ) - 1) * (q / (n : ℚ) * 10 ^ d + 1) ≤
        (n : ℚ) * (q / (n : ℚ) * 10 ^ d) := by
      nlinarith [hy]
    linarith [h3, h4, hys.le, hys.ge]

/-- C6 (amended): for N targets, total quantity q > 0 and precision d, the
sum of the N - 1 explicit per-leg quantities roundUp(q/N, d) stays below q
provided q is at least N(N-1)/10^d (without that bound ceiling each chunk
can overshoot the total, see the counterexample), and the last leg carries
no explicit quantity. -/
theorem C6_chunk_sum_bound (targets : List ℚ) (q : ℚ) (d : Nat)
    (symbol side ps : String) (hne : targets ≠ []) (hq : 0 < q)
    (hbound : (targets.length : ℚ) * ((targets.length : ℚ) - 1) / 10 ^ d ≤ q) :
    ((((tp_order_params symbol side ps (round_more (q / (targets.length : ℚ)) d)
          targets).map (fun p => p.quantity)).dropLast).map (fun o => o.getD 0)).sum ≤ q ∧
    ((tp_order_params symbol side ps (round_more (q / (targets.length : ℚ)) d)
        targets).map (fun p => p.quantity)).getLast? = some none := by
  rw [tp_params_quantities _ _ _ _ _ hne]
  constructor
  · rw [List.dropLast_concat, List.map_replicate, List.sum_replicate, nsmul_eq_mul,
      Option.getD_some]
    exact chunk_sum_arith q targets.length d (List.length_pos.mpr hne) hq hbound
  · rw [List.getLast?_concat]

/-- Witness for C6_chunk_sum_bound at the spec ladder example: three targets,
q = 1/5, precision 3. -/
theorem C6_chunk_sum_bound_witness :
    (([51000, 52000, 53000] : List ℚ) ≠ []) ∧ ((0 : ℚ) < 1/5) ∧
    ((([51000, 52000, 53000] : List ℚ).length : ℚ) *
        ((([51000, 52000, 53000] : List ℚ).length : ℚ) - 1) / 10 ^ 3 ≤ 1/5) ∧
    (((((tp_order_params "BTCUSDT" "BUY" "BOTH"
           (round_more ((1/5 : ℚ) / (([51000, 52000, 53000] : List ℚ).length : ℚ)) 3)
           [51000, 52000, 53000]).map (fun p => p.quantity)).dropLast).map
         (fun o => o.getD 0)).sum ≤ (1/5 : ℚ) ∧
     ((tp_order_params "BTCUSDT" "BUY" "BOTH"
         (round_more ((1/5 : ℚ) / (([51000, 52000, 53000] : List ℚ).length : ℚ)) 3)
         [51000, 52000, 53000]).map (fun p => p.quantity)).getLast? = some none) :=
  ⟨by simp, by norm_num, by norm_num,
   C6_chunk_sum_bound [51000, 52000, 53000] (1/5) 3 "BTCUSDT" "BUY" "BOTH"
     (by simp) (by norm_num) (by norm_num)⟩

/-- Counterexample for C6 as stated: with two targets, total quantity 0.1 and
precision 0 the single explicit chunk is ceil(0.05) = 1, so the sum of the
explicit quantities is 1, which exceeds the total quantity 0.1. -/
theorem C6_counterexample :
    ((((tp_order_params "BTCUSDT" "BUY" "BOTH" (round_more ((1/10 : ℚ) / 2) 0)
          [1, 2]).map (fun p => p.quantity)).dropLast).map (fun o => o.getD 0)).sum = 1 ∧
    ¬((1 : ℚ) ≤ 1/10) := by
  constructor
  · rw [show ((1/10 : ℚ) / 2) = 1/20 by norm_num]
    rw [round_more_eval (1/20 : ℚ) 0 1 (by norm_num) (by norm_num)]
    norm_num [tp_order_params, tp_chunk_param, tp_close_param]
  · norm_num

/-! ## C2: sizing never returns a quantity below the effective min notional -/

lemma binance_calc_eval (symbols : List SymbolInfo) (symbol : String)
    (p usdt lev : ℚ) (adjust : Bool) (tps : Option (List ℚ)) (item : SymbolInfo)
    (hfind : symbols.find? (fun s => s.symbol == symbol) = some item)
    (hne : p ≠ 0) :
    binance_calculate_quantity_from_usdt symbols symbol p usdt lev adjust tps =
      if usdt * lev / p * p < effective_min_notional item tps then
        (if adjust then
          (match binance_get_quantity_precision symbols symbol with
           | .error e => .error e
           | .ok prec => .ok (round_more (effective_min_notional item tps / p) prec))
         else .error .belowMinNotional)
      else
        (match binance_get_quantity_precision symbols symbol with
         | .error e => .error e
         | .ok prec => .ok (round_more (usdt * lev / p) prec)) := by
  unfold binance_calculate_quantity_from_usdt
  rw [if_neg hne, hfind]

/-- C2: with the symbol present and a positive price, any quantity
calculate_quantity_from_usdt returns has notional at least the effective
min-notional (multiplied by the number of take-profit targets when given),
and when the raw notional is below that threshold with auto-adjust disabled
the call fails with the below-min-notional error and returns no quantity. -/
theorem C2_sizing_min_notional (symbols : List SymbolInfo) (symbol : String)
    (current_price usdt lev : ℚ) (adjust : Bool) (tps : Option (List ℚ))
    (item : SymbolInfo) (q : ℚ)
    (hfind : symbols.find? (fun s => s.symbol == symbol) = some item)
    (hp : 0 < current_price) :
    (binance_calculate_quantity_from_usdt symbols symbol current_price usdt lev adjust tps
        = Except.ok q → effective_min_notional item tps ≤ q * current_price) ∧
    (usdt * lev < effective_min_notional item tps → adjust = false →
      binance_calculate_quantity_from_usdt symbols symbol current_price usdt lev adjust tps
        = Except.error CalcError.belowMinNotional) := by
  have hne : current_price ≠ 0 := ne_of_gt hp
  have hcancel : usdt * lev / current_price * current_price = usdt * lev :=
    div_mul_cancel₀ _ hne
  rw [binance_calc_eval symbols symbol current_price usdt lev adjust tps item hfind hne]
  constructor
  · intro hok
    by_cases hlt : usdt * lev / current_price * current_price <
        effective_min_notional item tps
    · rw [if_pos hlt] at hok
      cases hadj : adjust with
      | false => rw [hadj, if_neg (by simp)] at hok; exact Except.noConfusion hok
      | true =>
        rw [hadj, if_pos rfl] at hok
        rcases hprec : binance_get_quantity_precision symbols symbol with e | prec
        · rw [hprec] at hok
          exact Except.noConfusion hok
        · rw [hprec] at hok
          have hq2 := Except.ok.inj hok
          subst hq2
          calc effective_min_notional item tps
              = effective_min_notional item tps / current_price * current_price :=
                (div_mul_cancel₀ _ hne).symm
            _ ≤ round_more (effective_min_notional item tps / current_price) prec *
                  current_price :=
                mul_le_mul_of_nonneg_right (le_round_more _ _) hp.le
    · rw [if_neg hlt] at hok
      push_neg at hlt
      rcases hprec : binance_get_quantity_precision symbols symbol with e | prec
      · rw [hprec] at hok
        exact Except.noConfusion hok
      · rw [hprec] at hok
        have hq2 := Except.ok.inj hok
        subst hq2
        calc effective_min_notional item tps
            ≤ usdt * lev / current_price * current_price := hlt
          _ ≤ round_more (usdt * lev / current_price) prec * current_price :=
              mul_le_mul_of_nonneg_right (le_round_more _ _) hp.le
  · intro hbelow hadj
    rw [if_pos (by rw [hcancel]; exact hbelow), hadj, if_neg (by simp)]

/-- Witness for C2_sizing_min_notional: one symbol with min notional 5,
price 2, 10 USDT at leverage 1, auto-adjust off. -/
theorem C2_sizing_min_notional_witness :
    (([⟨"BTCUSDT", [{ filterType := "MIN_NOTIONAL", notional := 5 }]⟩] :
        List SymbolInfo).find? (fun s => s.symbol == "BTCUSDT") =
      some ⟨"BTCUSDT", [{ filterType := "MIN_NOTIONAL", notional := 5 }]⟩) ∧
    ((0 : ℚ) < 2) ∧
    ((binance_calculate_quantity_from_usdt
          [⟨"BTCUSDT", [{ filterType := "MIN_NOTIONAL", notional := 5 }]⟩]
          "BTCUSDT" 2 10 1 false none = Except.ok 7 →
        effective_min_notional
            ⟨"BTCUSDT", [{ filterType := "MIN_NOTIONAL", notional := 5 }]⟩ none ≤ 7 * 2) ∧
     ((10 : ℚ) * 1 < effective_min_notional
          ⟨"BTCUSDT", [{ filterType := "MIN_NOTIONAL", notional := 5 }]⟩ none →
        false = false →
        binance_calculate_quantity_from_usdt
            [⟨"BTCUSDT", [{ filterType := "MIN_NOTIONAL", notional := 5 }]⟩]
            "BTCUSDT" 2 10 1 false none = Except.error CalcError.belowMinNotional)) :=
  ⟨rfl, by norm_num,
   C2_sizing_min_notional
     [⟨"BTCUSDT", [{ filterType := "MIN_NOTIONAL", notional := 5 }]⟩]
     "BTCUSDT" 2 10 1 false none
     ⟨"BTCUSDT", [{ filterType := "MIN_NOTIONAL", notional := 5 }]⟩ 7 rfl (by norm_num)⟩
